import Mathlib

/-!
Verification development for check_estimation.c (DOMjudge,
src/sql/files/defaultdata/estimation/check_estimation.c).

The program is a token-level output comparator.  Its source references several
identifiers that are declared nowhere in the file (abs_prec, rel_prec,
ignore_ws, the function equal, and the locals f1, f2, absdiff, reldiff used
inside should_accept and main); those are modelled here as explicit parameters
or registers.  Long-double arithmetic is modelled exactly over the rationals,
extended with signed infinities and a NaN; rounding, overflow and hexadecimal
float literals are not modelled.  A C line buffer is modelled as the list of
characters up to its terminating NUL; reading at or past the terminator
yields the NUL character, as in the source's array indexing.
-/

/-- The floating point type used internally by the checker (long double),
modelled as an exact rational together with signed infinity and NaN. -/
inductive Flt where
  | fin (q : ℚ)
  | inf (pos : Bool)
  | nan
deriving DecidableEq

/-- C99 isfinite. -/
def Flt.isfinite : Flt → Bool
  | .fin _ => true
  | _ => false

/-- C99 isnan. -/
def Flt.isnan : Flt → Bool
  | .nan => true
  | _ => false

/-- C99 isinf. -/
def Flt.isinf : Flt → Bool
  | .inf _ => true
  | _ => false

/-- IEEE-style subtraction on the extended rationals. -/
def Flt.sub : Flt → Flt → Flt
  | .fin a, .fin b => .fin (a - b)
  | .fin _, .inf p => .inf (!p)
  | .inf p, .fin _ => .inf p
  | .inf p, .inf q => if p = q then .nan else .inf p
  | _, _ => .nan

/-- IEEE-style division on the extended rationals (zero is unsigned here,
so x/0 for x > 0 gives +infinity and 0/0 gives NaN). -/
def Flt.div : Flt → Flt → Flt
  | .fin a, .fin b =>
      if b = 0 then (if a = 0 then .nan else .inf (decide (0 < a))) else .fin (a / b)
  | .fin _, .inf _ => .fin 0
  | .inf p, .fin b => .inf (p == decide (0 ≤ b))
  | .inf _, .inf _ => .nan
  | _, _ => .nan

/-- fabsl. -/
def Flt.fabs : Flt → Flt
  | .fin a => .fin |a|
  | .inf _ => .inf true
  | .nan => .nan

/-- IEEE comparison f1 < f2 (false whenever either side is NaN). -/
def Flt.flt_lt : Flt → Flt → Bool
  | .fin a, .fin b => decide (a < b)
  | .fin _, .inf p => p
  | .inf p, .fin _ => !p
  | .inf p, .inf q => !p && q
  | _, _ => false

/-- IEEE comparison f1 > f2. -/
def Flt.flt_gt (x y : Flt) : Bool := Flt.flt_lt y x

/-- Embedding of should_accept (check_estimation.c lines 99-121).  The C
function takes (successes, cases), but its body only reads the undeclared
identifiers f1, f2, abs_prec and rel_prec, which are modelled as the extra
parameters; the sample counts are accepted and ignored exactly as in the
source. -/
def should_accept (successes cases : Flt) (f1 f2 abs_prec rel_prec : Flt) : Bool :=
  if f1.isfinite && f2.isfinite then
    let absdiff := (f1.sub f2).fabs
    let reldiff := ((f1.sub f2).div f2).fabs
    !(absdiff.flt_gt abs_prec && reldiff.flt_gt rel_prec)
  else if f1.isnan && f2.isnan then true
  else if f1.isinf && f2.isinf then
    (f1.flt_lt (.fin 0) && f2.flt_lt (.fin 0)) || (f1.flt_gt (.fin 0) && f2.flt_gt (.fin 0))
  else false

/-- The identifiers abs_prec, rel_prec and ignore_ws are referenced by the
source but declared nowhere in it; they are modelled as run-wide parameters. -/
structure Globals where
  abs_prec : Flt
  rel_prec : Flt
  ignore_ws : Bool
deriving DecidableEq

/-- Modelled from the spec: the token-level numeric equality equal(f1,f2)
called from main (line 276) is not defined anywhere in this source file; the
spec's numeric classification rules (section 4.1), which coincide with the
body of should_accept, give its semantics: finite values are equal when
within either the absolute or the relative tolerance, NaN equals NaN, and
infinities are equal when their signs match. -/
def equal (g : Globals) (f1 f2 : Flt) : Bool :=
  if f1.isfinite && f2.isfinite then
    let absdiff := (f1.sub f2).fabs
    let reldiff := ((f1.sub f2).div f2).fabs
    !(absdiff.flt_gt g.abs_prec && reldiff.flt_gt g.rel_prec)
  else if f1.isnan && f2.isnan then true
  else if f1.isinf && f2.isinf then
    (f1.flt_lt (.fin 0) && f2.flt_lt (.fin 0)) || (f1.flt_gt (.fin 0) && f2.flt_gt (.fin 0))
  else false

/-- Claim C1: the claim states that the Interval Acceptance Test's verdict is
accept iff the corrected z-statistic satisfies z_obs >= -z.  In the code the
only candidate for that test, should_accept, does not depend on the success
count or the case count at all: its result is the same for any two samples,
so no z-statistic (which varies with k and n) is computed anywhere.  This
theorem exhibits that independence. -/
theorem should_accept_ignores_sample
    (s c s' c' f1 f2 ap rp : Flt) :
    should_accept s c f1 f2 ap rp = should_accept s' c' f1 f2 ap rp := rfl

/-- Claim C3: the token-level numeric-equality fallback.  For finite values
(with a nonnegative absolute tolerance) equality holds iff the absolute
difference is within the absolute tolerance or the relative difference is
within the relative tolerance; two NaNs are equal; two infinities are equal
iff their signs match; every mixed combination is unequal. -/
theorem numeric_fallback_classification (s c : Flt) (a r : ℚ) (ha : 0 ≤ a) :
    (∀ x y : ℚ, should_accept s c (.fin x) (.fin y) (.fin a) (.fin r) = true ↔
        |x - y| ≤ a ∨ (y ≠ 0 ∧ |(x - y) / y| ≤ r)) ∧
    should_accept s c .nan .nan (.fin a) (.fin r) = true ∧
    (∀ p q : Bool, should_accept s c (.inf p) (.inf q) (.fin a) (.fin r) = (p == q)) ∧
    (∀ x : ℚ, ∀ p : Bool, should_accept s c (.fin x) (.inf p) (.fin a) (.fin r) = false) ∧
    (∀ x : ℚ, ∀ p : Bool, should_accept s c (.inf p) (.fin x) (.fin a) (.fin r) = false) ∧
    (∀ x : ℚ, should_accept s c (.fin x) .nan (.fin a) (.fin r) = false) ∧
    (∀ x : ℚ, should_accept s c .nan (.fin x) (.fin a) (.fin r) = false) ∧
    (∀ p : Bool, should_accept s c (.inf p) .nan (.fin a) (.fin r) = false) ∧
    (∀ p : Bool, should_accept s c .nan (.inf p) (.fin a) (.fin r) = false) := by
  refine ⟨?_, rfl, ?_, ?_, ?_, ?_, ?_, ?_, ?_⟩
  · intro x y
    by_cases hy : y = 0
    · subst hy
      by_cases hx : x - 0 = 0
      · have hx' : x = 0 := by linarith [hx]
        subst hx'
        simp only [should_accept, Flt.isfinite, Flt.sub, Flt.div, Flt.fabs, Flt.flt_gt,
          Flt.flt_lt, Bool.and_self, if_true]
        norm_num [ha]
      · simp only [should_accept, Flt.isfinite, Flt.sub, Flt.div, Flt.fabs, Flt.flt_gt,
          Flt.flt_lt, Bool.and_self, if_true, if_pos rfl, if_neg hx]
        rcases le_or_lt |x - 0| a with h | h
        · simp [h, not_lt.mpr h]
        · simp [not_le.mpr h, lt_iff_lt_of_le_iff_le, h]
    · simp only [should_accept, Flt.isfinite, Flt.sub, Flt.div, Flt.fabs, Flt.flt_gt,
        Flt.flt_lt, Bool.and_self, if_true, if_neg hy]
      constructor
      · intro h
        rcases le_or_lt |x - y| a with h1 | h1
        · exact Or.inl h1
        · refine Or.inr ⟨hy, ?_⟩
          by_contra hr
          simp [not_le.mp hr, h1] at h
      · intro h
        rcases h with h1 | ⟨_, h2⟩
        · simp [not_lt.mpr h1]
        · simp [not_lt.mpr h2]
  · intro p q
    cases p <;> cases q <;> rfl
  · intro x p; cases p <;> rfl
  · intro x p; cases p <;> rfl
  · intro x; rfl
  · intro x; rfl
  · intro p; cases p <;> rfl
  · intro p; cases p <;> rfl

/-- Witness for C3 at a concrete tolerance and value. -/
theorem numeric_fallback_classification_witness :
    should_accept (.fin 0) (.fin 0) (.fin 1) (.fin 1) (.fin 1) (.fin 1) = true :=
  ((numeric_fallback_classification (.fin 0) (.fin 0) 1 1 (by norm_num)).1 1 1).mpr
    (Or.inl (by norm_num))

/-! ### Character classification and whitespace scanning -/

/-- C isspace for the default locale. -/
def isspaceC (c : Char) : Bool :=
  c == ' ' || c == '\t' || c == '\n' || c == Char.ofNat 11 || c == Char.ofNat 12 || c == '\r'

/-- C isdigit. -/
def isdigitC (c : Char) : Bool := '0' ≤ c && c ≤ '9'

/-- The whitespace prefix copied into the result buffer by scanspace
(check_estimation.c lines 123-134); its length is scanspace's return value. -/
def wsTake (l : List Char) : List Char := l.takeWhile isspaceC

/-- The remainder of the buffer after scanspace has run. -/
def wsDrop (l : List Char) : List Char := l.dropWhile isspaceC

/-- The token read by sscanf(str, "%s", ...): skip whitespace, then the
maximal run of non-whitespace characters.  The conversion succeeds (returns 1)
iff this is nonempty; otherwise sscanf returns EOF and writes nothing. -/
def scanTok (l : List Char) : List Char :=
  (wsDrop l).takeWhile (fun c => !isspaceC c)

/-- The character count reported by sscanf(str, "%*s%n", ...) on success:
leading whitespace plus the token. -/
def scanTokLen (l : List Char) : ℕ := (wsTake l).length + (scanTok l).length

/-! ### Numeric parsing (model of strtold / sscanf %Lf)

The model covers decimal and scientific notation with optional sign, and the
inf / nan keywords; hexadecimal floats and the long forms infinity / nan(...)
are not modelled (no claim depends on them). -/

/-- Numeric value of a digit run. -/
def digitsToNat (ds : List Char) : ℕ :=
  ds.foldl (fun a c => 10 * a + (c.toNat - 48)) 0

/-- Value of a fractional digit run. -/
def fracVal (ds : List Char) : ℚ := (digitsToNat ds : ℚ) / 10 ^ ds.length

/-- Integer power of ten over the rationals. -/
def pow10 (e : ℤ) : ℚ :=
  if 0 ≤ e then (10 : ℚ) ^ e.toNat else ((10 : ℚ) ^ (-e).toNat)⁻¹

/-- Parse an optional exponent part (e or E, optional sign, digits); returns
the exponent value and the characters consumed (0 when no valid exponent). -/
def parseExp (s : List Char) : ℤ × ℕ :=
  match s with
  | c :: rest =>
    if c == 'e' || c == 'E' then
      match rest with
      | '+' :: r =>
          let d := r.takeWhile isdigitC
          if d = [] then (0, 0) else ((digitsToNat d : ℤ), 2 + d.length)
      | '-' :: r =>
          let d := r.takeWhile isdigitC
          if d = [] then (0, 0) else (-(digitsToNat d : ℤ), 2 + d.length)
      | _ =>
          let d := rest.takeWhile isdigitC
          if d = [] then (0, 0) else ((digitsToNat d : ℤ), 1 + d.length)
    else (0, 0)
  | [] => (0, 0)

/-- Parse a decimal mantissa (digits, optional point, digits); at least one
digit is required.  Returns the value and the characters consumed. -/
def parseMantissa (s : List Char) : Option (ℚ × ℕ) :=
  let ip := s.takeWhile isdigitC
  match s.drop ip.length with
  | '.' :: rest =>
      let fp := rest.takeWhile isdigitC
      if ip = [] ∧ fp = [] then none
      else some ((digitsToNat ip : ℚ) + fracVal fp, ip.length + 1 + fp.length)
  | _ => if ip = [] then none else some ((digitsToNat ip : ℚ), ip.length)

/-- Parse the part after an optional sign: inf, nan, or mantissa with
optional exponent. -/
def parseAfterSign (neg : Bool) (s : List Char) : Option (Flt × ℕ) :=
  if (s.take 3).map Char.toLower = ['i', 'n', 'f'] then some (.inf (!neg), 3)
  else if (s.take 3).map Char.toLower = ['n', 'a', 'n'] then some (.nan, 3)
  else
    match parseMantissa s with
    | none => none
    | some (m, n) =>
        let (e, en) := parseExp (s.drop n)
        some (.fin ((if neg then -m else m) * pow10 e), n + en)

/-- Parse a float with optional sign (no leading whitespace). -/
def parseFlt (s : List Char) : Option (Flt × ℕ) :=
  match s with
  | '+' :: r => (parseAfterSign false r).map (fun p => (p.1, p.2 + 1))
  | '-' :: r => (parseAfterSign true r).map (fun p => (p.1, p.2 + 1))
  | _ => parseAfterSign false s

/-- Model of C strtold: skip leading whitespace, parse the longest valid
prefix.  Returns the value and the total number of characters consumed; on
failure no conversion is performed, the value is 0 and the end pointer equals
the start (consumed = 0). -/
def strtold (s : List Char) : Flt × ℕ :=
  let w := (wsTake s).length
  match parseFlt (s.drop w) with
  | some (v, n) => (v, w + n)
  | none => (.fin 0, 0)

/-- Model of sscanf(str, "%Lf", &f): EOF (-1) when the input is empty or all
whitespace, 0 on a matching failure, 1 on success.  The register f is only
written on success, as in C. -/
def sscanf_Lf (tok : List Char) (old : Flt) : Int × Flt :=
  if wsDrop tok = [] then (-1, old)
  else
    match parseFlt (wsDrop tok) with
    | some (v, _) => (1, v)
    | none => (0, old)

/-! ### Option-argument parsing (check_estimation.c lines 160-168) -/

/-- Embedding of the alpha / probability option handler:
val = strtold(optarg, &ptr); the option is rejected when *ptr != 0 (the
parse did not consume the whole argument) or when ptr == (char *)&optarg.
The second disjunct compares ptr against the address of the global pointer
variable optarg itself, which is a different object from the string it points
to, so that comparison is never true; it is modelled as False. -/
def parseRealArg (v : List Char) : Option Flt :=
  let r := strtold v
  if r.2 ≠ v.length ∨ False then none else some r.1

/-- getopt_long events as delivered to the switch in main: each alpha (-a,
--alpha) or probability (-p, --probability) option with its argument, the
long-only help and version flags, and an unrecognized-option event. -/
inductive OptEvent where
  | alphaOpt (val : List Char)
  | probOpt (val : List Char)
  | helpOpt
  | versionOpt
  | unknownOpt
deriving DecidableEq

/-- Exit causes of the error() helper in main: every non-zero exit of the
program. -/
inductive CError where
  | unknownOption
  | badAlpha
  | badProbability
  | notEnoughArgs
  | bothStdin
  | cannotOpen (firstFile : Bool)
deriving DecidableEq

/-- Default significance level (line 62; the decimal literal 0.05 is
modelled exactly). -/
def default_alpha : Flt := .fin (1 / 20)

/-- Default null-hypothesis probability (line 63). -/
def default_probability : Flt := .fin (19 / 20)

/-- Embedding of the option-processing loop (lines 156-177).  The state is
(alpha, probability, show_help, show_version). -/
def processOpts : List OptEvent → (Flt × Flt × Bool × Bool) →
    Except CError (Flt × Flt × Bool × Bool)
  | [], st => .ok st
  | e :: rest, (a, p, sh, sv) =>
    match e with
    | .alphaOpt v =>
        match parseRealArg v with
        | some val => processOpts rest (val, p, sh, sv)
        | none => .error .badAlpha
    | .probOpt v =>
        match parseRealArg v with
        | some val => processOpts rest (a, val, sh, sv)
        | none => .error .badProbability
    | .helpOpt => processOpts rest (a, p, true, sv)
    | .versionOpt => processOpts rest (a, p, sh, true)
    | .unknownOpt => .error .unknownOption

/-- Claim C6: the claim requires a usage error whenever the option value does
not parse fully and non-emptily as a real number.  The code instead accepts
the empty value and sets alpha to 0: strtold consumes nothing, the end
pointer is at the terminating NUL so *ptr == 0 holds, and the intended
emptiness guard compares the end pointer against (char *)&optarg, the address
of the optarg variable itself, which never matches.  This evaluates the
embedded handler on the empty value. -/
theorem empty_alpha_value_accepted :
    processOpts [OptEvent.alphaOpt []] (default_alpha, default_probability, false, false)
      = .ok (.fin 0, default_probability, false, false) := rfl

/-! ### Output lines and the per-line token loop (check_estimation.c lines 201-311)

Positions are represented by the remaining suffix of each line buffer:
the C cursor pos satisfies pos = line.length - rest.length, and the
arithmetic pos += n corresponds to rest.drop n (reading at or past the
terminating NUL yields NUL, which is how the source's bottom-of-loop test
line[pos] == 0 is modelled via headD). -/

/-- One printed line of output.  Every constructor except summary renders as
a diagnostic of the form line N: description (lines 213, 218, 241, 246, 258,
264, 271, 278-286, 296); summary renders as the final Found N differences in
M lines (line 311). -/
inductive OutLine where
  | fileEnded (linenr : ℕ) (firstEnded : Bool)
  | missingToken (linenr tokennr : ℕ)
  | excessToken (linenr tokennr : ℕ)
  | parseFail (linenr tokennr : ℕ) (firstFile : Bool)
  | nonFloatDiffer (linenr tokennr : ℕ) (str1 str2 : List Char)
  | floatDiffers (linenr tokennr : ℕ) (f1 f2 : Flt)
  | wsMismatch (linenr tokennr : ℕ)
  | summary (diff lines : ℕ)
deriving DecidableEq

/-- State of the per-line token loop: the remaining suffixes of the two line
buffers, the token counter, and the C registers str1, str2, n1, n2, f1, f2
(which keep stale values when an sscanf conversion fails), plus the
accumulated counters and output. -/
structure TokSt where
  rest1 : List Char
  rest2 : List Char
  tokennr : ℕ
  str1 : List Char
  str2 : List Char
  n1 : ℕ
  n2 : ℕ
  f1 : Flt
  f2 : Flt
  diff : ℕ
  wsdiff : ℕ
  out : List OutLine
deriving DecidableEq

/-- Result of one iteration of the token loop: continue or leave the loop. -/
inductive StepRes where
  | cont (s : TokSt)
  | halt (s : TokSt)
deriving DecidableEq

/-- The state carried by either result. -/
def StepRes.state : StepRes → TokSt
  | .cont s => s
  | .halt s => s

/-- The NUL character. -/
def NUL : Char := Char.ofNat 0

/-- The tokendone tail of the loop body (lines 289-304): scan trailing
whitespace on both sides into the str registers, record a whitespace
mismatch (printed only when whitespace is not ignored), advance both
cursors, and leave the loop when both lines are exhausted. -/
def tokendoneF (g : Globals) (linenr tokennr : ℕ) (rest1 rest2 : List Char)
    (f1 f2 : Flt) (diff wsdiff : ℕ) (out : List OutLine) : StepRes :=
  let w1 := wsTake rest1
  let w2 := wsTake rest2
  let wsdiff' := if w1 ≠ w2 then wsdiff + 1 else wsdiff
  let out' := if w1 ≠ w2 ∧ ¬g.ignore_ws then out ++ [.wsMismatch linenr tokennr] else out
  let r1 := rest1.drop w1.length
  let r2 := rest2.drop w2.length
  let s' : TokSt := ⟨r1, r2, tokennr, w1, w2, w1.length, w2.length, f1, f2, diff, wsdiff', out'⟩
  if r1.headD NUL = NUL ∧ r2.headD NUL = NUL then .halt s' else .cont s'

/-- One iteration of the token loop body (lines 230-305). -/
def tokStep (g : Globals) (linenr : ℕ) (s : TokSt) : StepRes :=
  let tokennr := s.tokennr + 1
  let t1 := scanTok s.rest1
  let t2 := scanTok s.rest2
  let read1 := !t1.isEmpty
  let read2 := !t2.isEmpty
  let str1 := if read1 then t1 else s.str1
  let str2 := if read2 then t2 else s.str2
  let n1 := if read1 then scanTokLen s.rest1 else s.n1
  let n2 := if read2 then scanTokLen s.rest2 else s.n2
  let rest1 := s.rest1.drop n1
  let rest2 := s.rest2.drop n2
  if !read1 && read2 then
    .halt ⟨rest1, rest2, tokennr, str1, str2, n1, n2, s.f1, s.f2, s.diff + 1,
           s.wsdiff, s.out ++ [.missingToken linenr tokennr]⟩
  else if read1 && !read2 then
    .halt ⟨rest1, rest2, tokennr, str1, str2, n1, n2, s.f1, s.f2, s.diff + 1,
           s.wsdiff, s.out ++ [.excessToken linenr tokennr]⟩
  else if str1 = str2 then
    tokendoneF g linenr tokennr rest1 rest2 s.f1 s.f2 s.diff s.wsdiff s.out
  else
    match sscanf_Lf str1 s.f1, sscanf_Lf str2 s.f2 with
    | (c1, f1), (c2, f2) =>
      if c1 = 0 then
        .halt ⟨rest1, rest2, tokennr, str1, str2, n1, n2, f1, f2, s.diff + 1,
               s.wsdiff, s.out ++ [.parseFail linenr tokennr true]⟩
      else if c2 = 0 then
        .halt ⟨rest1, rest2, tokennr, str1, str2, n1, n2, f1, f2, s.diff + 1,
               s.wsdiff, s.out ++ [.parseFail linenr tokennr false]⟩
      else
        let d1 := if ¬(c1 = 1 ∧ c2 = 1) then s.diff + 1 else s.diff
        let o1 := if ¬(c1 = 1 ∧ c2 = 1) then s.out ++ [.nonFloatDiffer linenr tokennr str1 str2]
                  else s.out
        let d2 := if ¬(equal g f1 f2 = true) then d1 + 1 else d1
        let o2 := if ¬(equal g f1 f2 = true) then o1 ++ [.floatDiffers linenr tokennr f1 f2]
                  else o1
        tokendoneF g linenr tokennr rest1 rest2 f1 f2 d2 s.wsdiff o2

/-- Fuel-indexed driver of the token loop; the Bool is true when the loop
left through one of its break statements and false when the fuel ran out
(the termination theorem shows sufficient fuel never runs out). -/
def tokLoopF (g : Globals) (linenr : ℕ) : ℕ → TokSt → TokSt × Bool
  | 0, s => (s, false)
  | fuel + 1, s =>
    match tokStep g linenr s with
    | .halt s' => (s', true)
    | .cont s' => tokLoopF g linenr fuel s'

/-- State threaded through the outer line loop: the difference counters, the
float registers f1 and f2 (function-scoped in C, so they persist across
lines), and the output so far. -/
structure MSt where
  diff : ℕ
  wsdiff : ℕ
  f1 : Flt
  f2 : Flt
  out : List OutLine
deriving DecidableEq

/-- Process one pair of lines (lines 223-305): scan leading whitespace into
the str registers, then run the token loop. -/
def runLine (g : Globals) (l1 l2 : List Char) (linenr : ℕ) (m : MSt) : MSt :=
  let s0 : TokSt := ⟨wsDrop l1, wsDrop l2, 0, wsTake l1, wsTake l2,
                     (wsTake l1).length, (wsTake l2).length,
                     m.f1, m.f2, m.diff, m.wsdiff, m.out⟩
  let s := (tokLoopF g linenr (l1.length + l2.length + 1) s0).1
  ⟨s.diff, s.wsdiff, s.f1, s.f2, s.out⟩

/-- The outer line loop (lines 205-306): fgets on both files, stop when both
are exhausted, record a length mismatch and stop when exactly one is.
Returns the final value of linenr together with the loop state. -/
def mainLoop (g : Globals) : List (List Char) → List (List Char) → ℕ → MSt → ℕ × MSt
  | [], [], linenr, m => (linenr + 1, m)
  | [], _ :: _, linenr, m =>
      (linenr + 1, ⟨m.diff + 1, m.wsdiff, m.f1, m.f2,
                    m.out ++ [.fileEnded (linenr + 1) true]⟩)
  | _ :: _, [], linenr, m =>
      (linenr + 1, ⟨m.diff + 1, m.wsdiff, m.f1, m.f2,
                    m.out ++ [.fileEnded (linenr + 1) false]⟩)
  | l1 :: r1, l2 :: r2, linenr, m =>
      mainLoop g r1 r2 (linenr + 1) (runLine g l1 l2 (linenr + 1) m)

/-- The initial line-loop state (diff = wsdiff = 0 at line 202-203; the
uninitialized C locals f1 and f2 are modelled as 0). -/
def initMSt : MSt := ⟨0, 0, .fin 0, .fin 0, []⟩

/-- The complete comparison (lines 201-311): run the line loop on the two
files and append the summary line, which is printed only when diff > 0.
Returns the final difference count and the full output. -/
def fullRun (g : Globals) (l1s l2s : List (List Char)) : ℕ × List OutLine :=
  let r := mainLoop g l1s l2s 0 initMSt
  (r.2.diff, r.2.out ++ (if 0 < r.2.diff then [.summary r.2.diff (r.1 - 1)] else []))

/-- Embedding of main after getopt (lines 149-313): process the option
events, handle help and version (which exit 0), check the argument count,
reject both files being standard input, open both files (stdinF is the
standard-input contents, fs maps a file name to its contents when it can be
opened), run the comparison, and return exit status 0. -/
def mainFull (g : Globals) (evs : List OptEvent) (args : List String)
    (stdinF : List (List Char)) (fs : String → Option (List (List Char))) :
    Except CError (ℕ × List OutLine) :=
  match processOpts evs (default_alpha, default_probability, false, false) with
  | .error e => .error e
  | .ok (_alpha, _probability, show_help, show_version) =>
    if show_help then .ok (0, [])
    else if show_version then .ok (0, [])
    else if args.length < 3 then .error .notEnoughArgs
    else if args.getD 1 "" = "-" ∧ args.getD 2 "" = "-" then .error .bothStdin
    else
      match (if args.getD 1 "" = "-" then some stdinF else fs (args.getD 1 "")) with
      | none => .error (.cannotOpen true)
      | some f1 =>
        match (if args.getD 2 "" = "-" then some stdinF else fs (args.getD 2 "")) with
        | none => .error (.cannotOpen false)
        | some f2 => .ok (0, (fullRun g f1 f2).2)

/-- Claim C2: the claim states that for each Case the tokenizer consumes two
numeric tokens L and R from the reference stream and one numeric token X from
the submission stream, with outcome 1 iff L <= X <= R.  The code instead
compares tokens strictly one-to-one: on submission line 50 against reference
line 0 100 it does not form the interval (0, 100) and decide that 50 is
inside it; it compares 50 against 0 as a float pair, reports a whitespace
mismatch, and then reports that file 1 misses its 2nd token.  The declared
locals Xi, Li, Ri (line 146) are never used. -/
theorem interval_tokens_reported_as_mismatch :
    fullRun ⟨.fin 0, .fin 0, false⟩ [['5', '0', '\n']] [['0', ' ', '1', '0', '0', '\n']]
      = (2, [.floatDiffers 1 1 (.fin 50) (.fin 0), .wsMismatch 1 1, .missingToken 1 2,
             .summary 2 1]) := by with_unfolding_all decide

/-- Counterexample to claim C9: on a run with zero differences (identical
single-line files) the output is completely empty: there is no final summary
line carrying the zero count, and no verdict or statistic is printed. -/
theorem no_summary_when_zero_diffs :
    fullRun ⟨.fin 0, .fin 0, false⟩ [['1', '\n']] [['1', '\n']] = (0, []) := by
  with_unfolding_all decide

/-- Claim C4: whenever main reaches normal termination (options processed,
arguments sufficient, both files opened), the exit status is 0 regardless of
how many differences were found; non-zero exits happen only through error()
on usage or file-open failures, which are the CError outcomes. -/
theorem normal_termination_exit_zero (g : Globals) (evs : List OptEvent)
    (args : List String) (stdinF : List (List Char))
    (fs : String → Option (List (List Char))) (r : ℕ × List OutLine)
    (h : mainFull g evs args stdinF fs = .ok r) : r.1 = 0 := by
  unfold mainFull at h
  repeat' split at h
  all_goals
    first
      | (injection h with h2; rw [← h2])
      | injection h

/-- Witness for C4: a run with one difference (file 2 is shorter) still
exits 0. -/
theorem normal_termination_exit_zero_witness :
    ((0, [OutLine.fileEnded 1 false, OutLine.summary 1 0]) : ℕ × List OutLine).1 = 0 :=
  normal_termination_exit_zero ⟨.fin 0, .fin 0, false⟩ [] ["x", "a", "-"] []
    (fun _ => some [['1']]) (0, [.fileEnded 1 false, .summary 1 0])
    (by with_unfolding_all rfl)

/-- Claim C7: when both file arguments are given as standard input the
program stops with a usage error before opening files or comparing anything
(no output is produced, the result is the bothStdin error). -/
theorem both_stdin_usage_error (g : Globals) (evs : List OptEvent)
    (args : List String) (stdinF : List (List Char))
    (fs : String → Option (List (List Char))) (a p : Flt)
    (hopts : processOpts evs (default_alpha, default_probability, false, false)
      = .ok (a, p, false, false))
    (hlen : 3 ≤ args.length) (h1 : args.getD 1 "" = "-") (h2 : args.getD 2 "" = "-") :
    mainFull g evs args stdinF fs = .error .bothStdin := by
  have hlt : ¬args.length < 3 := Nat.not_lt.mpr hlen
  simp at h1 h2
  simp [mainFull, hopts, h1, h2, hlt]

/-- Witness for C7. -/
theorem both_stdin_usage_error_witness :
    mainFull ⟨.fin 0, .fin 0, false⟩ [] ["x", "-", "-"] [] (fun _ => none)
      = .error .bothStdin :=
  both_stdin_usage_error ⟨.fin 0, .fin 0, false⟩ [] ["x", "-", "-"] [] (fun _ => none)
    default_alpha default_probability rfl (by decide) rfl rfl

/-- Helper for C8: the option loop leaves alpha and probability untouched
when no alpha or probability event occurs. -/
theorem processOpts_no_ap (evs : List OptEvent)
    (ha : ∀ v, OptEvent.alphaOpt v ∉ evs) (hp : ∀ v, OptEvent.probOpt v ∉ evs) :
    ∀ a p sh sv res, processOpts evs (a, p, sh, sv) = .ok res →
      res.1 = a ∧ res.2.1 = p := by
  induction evs with
  | nil =>
    intro a p sh sv res h
    injection h with h
    rw [← h]
    exact ⟨rfl, rfl⟩
  | cons e rest ih =>
    intro a p sh sv res h
    have ha' : ∀ v, OptEvent.alphaOpt v ∉ rest :=
      fun v hv => ha v (List.mem_cons_of_mem _ hv)
    have hp' : ∀ v, OptEvent.probOpt v ∉ rest :=
      fun v hv => hp v (List.mem_cons_of_mem _ hv)
    cases e with
    | alphaOpt v => exact absurd (List.mem_cons_self _ _) (ha v)
    | probOpt v => exact absurd (List.mem_cons_self _ _) (hp v)
    | helpOpt => exact ih ha' hp' a p true sv res (by simpa [processOpts] using h)
    | versionOpt => exact ih ha' hp' a p sh true res (by simpa [processOpts] using h)
    | unknownOpt => simp [processOpts] at h

/-- Claim C8: when no alpha or probability option is supplied the run's
parameters are the startup defaults alpha = 0.05 and probability = 0.95
(set once before the option loop at lines 152-153); nothing after line 177
assigns to either variable, so they are fixed for the rest of the run. -/
theorem default_parameters (evs : List OptEvent) (res : Flt × Flt × Bool × Bool)
    (ha : ∀ v, OptEvent.alphaOpt v ∉ evs) (hp : ∀ v, OptEvent.probOpt v ∉ evs)
    (h : processOpts evs (default_alpha, default_probability, false, false) = .ok res) :
    res.1 = default_alpha ∧ res.2.1 = default_probability :=
  processOpts_no_ap evs ha hp _ _ _ _ res h

/-- Witness for C8 at the empty option list. -/
theorem default_parameters_witness :
    ((default_alpha, default_probability, false, false) : Flt × Flt × Bool × Bool).1
        = default_alpha ∧
    ((default_alpha, default_probability, false, false) : Flt × Flt × Bool × Bool).2.1
        = default_probability :=
  default_parameters [] (default_alpha, default_probability, false, false)
    (by simp) (by simp) rfl

/-! ### Termination of the token loop -/

/-- Advancing the cursor by the length of the scanned whitespace prefix
lands exactly after the whitespace. -/
theorem drop_takeWhile_length (p : Char → Bool) (l : List Char) :
    l.drop (l.takeWhile p).length = l.dropWhile p := by
  induction l with
  | nil => rfl
  | cons x xs ih =>
    by_cases h : p x
    · simpa [List.takeWhile_cons, List.dropWhile_cons, h] using ih
    · simp [List.takeWhile_cons, List.dropWhile_cons, h]

/-- Specialization to the whitespace scanner. -/
theorem drop_wsTake (l : List Char) : l.drop (wsTake l).length = wsDrop l :=
  drop_takeWhile_length isspaceC l

/-- The first character after the whitespace scanner is not whitespace. -/
theorem wsDrop_ne_space (l : List Char) (x : Char) (xs : List Char)
    (h : wsDrop l = x :: xs) : isspaceC x = false := by
  induction l with
  | nil => simp [wsDrop] at h
  | cons c cs ih =>
    rw [wsDrop, List.dropWhile_cons] at h
    split at h
    · exact ih h
    · next hns =>
        injection h with h1 _
        subst h1
        simpa using hns

/-- sscanf %s fails exactly when the rest of the buffer is all whitespace. -/
theorem scanTok_eq_nil_iff (l : List Char) : scanTok l = [] ↔ wsDrop l = [] := by
  constructor
  · intro h
    rcases hw : wsDrop l with _ | ⟨x, xs⟩
    · rfl
    · have hx := wsDrop_ne_space l x xs hw
      rw [scanTok, hw, List.takeWhile_cons] at h
      simp [hx] at h
  · intro h
    rw [scanTok, h]
    rfl

/-- A buffer with no token is all whitespace. -/
theorem wsDrop_all (l : List Char) (h : wsDrop l = []) : ∀ c ∈ l, isspaceC c := by
  simpa [wsDrop, List.dropWhile_eq_nil_iff] using h

/-- Dropping characters from an all-whitespace buffer leaves an
all-whitespace buffer. -/
theorem wsDrop_drop (l : List Char) (h : wsDrop l = []) (k : ℕ) :
    wsDrop (l.drop k) = [] := by
  have hall := wsDrop_all l h
  rw [wsDrop, List.dropWhile_eq_nil_iff]
  intro x hx
  exact hall x (List.drop_subset k l hx)

/-- Scanning whitespace never lengthens the buffer. -/
theorem wsDrop_length_le (l : List Char) : (wsDrop l).length ≤ l.length :=
  (List.dropWhile_sublist isspaceC).length_le

/-- The whitespace prefix and the remainder partition the buffer. -/
theorem wsTake_wsDrop_length (l : List Char) :
    (wsTake l).length + (wsDrop l).length = l.length := by
  show (l.takeWhile isspaceC).length + (l.dropWhile isspaceC).length = l.length
  rw [← List.length_append, List.takeWhile_append_dropWhile]

/-- The %*s%n character count never exceeds the remaining buffer. -/
theorem scanTokLen_le (l : List Char) : scanTokLen l ≤ l.length := by
  have h1 : (scanTok l).length ≤ (wsDrop l).length :=
    (List.takeWhile_sublist _).length_le
  have h2 := wsTake_wsDrop_length l
  simp only [scanTokLen]
  omega

/-- A successful token read consumes at least one character. -/
theorem scanTokLen_pos (l : List Char) (h : scanTok l ≠ []) : 1 ≤ scanTokLen l := by
  have h0 : (scanTok l).length ≠ 0 := by simpa [List.length_eq_zero] using h
  simp only [scanTokLen]
  omega

/-- When the tokendone tail continues the loop, the new suffixes are the
whitespace-stripped old ones and at least one of them is nonempty. -/
theorem tokendoneF_cont (g : Globals) (ln tk : ℕ) (r1 r2 : List Char)
    (f1 f2 : Flt) (d w : ℕ) (o : List OutLine) (s' : TokSt)
    (h : tokendoneF g ln tk r1 r2 f1 f2 d w o = .cont s') :
    s'.rest1 = wsDrop r1 ∧ s'.rest2 = wsDrop r2 ∧ ¬(s'.rest1 = [] ∧ s'.rest2 = []) := by
  simp only [tokendoneF, drop_wsTake] at h
  split at h
  · injection h
  · next hc =>
      injection h with h
      subst h
      refine ⟨rfl, rfl, ?_⟩
      rintro ⟨e1, e2⟩
      simp only at e1 e2
      exact hc ⟨by rw [e1]; rfl, by rw [e2]; rfl⟩

/-- A continuing iteration of the token loop strictly shortens the combined
remaining input: either both sscanf %s reads succeeded and both cursors
advanced past their tokens, or both failed, in which case the rest of both
lines is whitespace and the bottom-of-loop test leaves the loop (a single
failing side leaves through the missing/excess-token breaks). -/
theorem tokStep_cont_progress (g : Globals) (ln : ℕ) (s s' : TokSt)
    (h : tokStep g ln s = .cont s') :
    s'.rest1.length + s'.rest2.length < s.rest1.length + s.rest2.length := by
  rcases hT1 : scanTok s.rest1 with _ | ⟨a1, t1⟩ <;>
    rcases hT2 : scanTok s.rest2 with _ | ⟨a2, t2⟩
  · simp only [tokStep, hT1, hT2] at h
    simp at h
    have w1 : wsDrop s.rest1 = [] := (scanTok_eq_nil_iff _).mp hT1
    have w2 : wsDrop s.rest2 = [] := (scanTok_eq_nil_iff _).mp hT2
    split at h
    · obtain ⟨e1, e2, hne⟩ := tokendoneF_cont _ _ _ _ _ _ _ _ _ _ _ h
      exact absurd ⟨e1.trans (wsDrop_drop _ w1 _), e2.trans (wsDrop_drop _ w2 _)⟩ hne
    · split at h
      · injection h
      · split at h
        · injection h
        · obtain ⟨e1, e2, hne⟩ := tokendoneF_cont _ _ _ _ _ _ _ _ _ _ _ h
          exact absurd ⟨e1.trans (wsDrop_drop _ w1 _), e2.trans (wsDrop_drop _ w2 _)⟩ hne
  · simp only [tokStep, hT1, hT2] at h
    simp at h
  · simp only [tokStep, hT1, hT2] at h
    simp at h
  · simp only [tokStep, hT1, hT2] at h
    simp at h
    have hp1 : 1 ≤ scanTokLen s.rest1 := scanTokLen_pos _ (by rw [hT1]; simp)
    have hp2 : 1 ≤ scanTokLen s.rest2 := scanTokLen_pos _ (by rw [hT2]; simp)
    have hl1 : scanTokLen s.rest1 ≤ s.rest1.length := scanTokLen_le _
    have hl2 : scanTokLen s.rest2 ≤ s.rest2.length := scanTokLen_le _
    have key : ∀ r : TokSt, r.rest1 = wsDrop (List.drop (scanTokLen s.rest1) s.rest1) →
        r.rest2 = wsDrop (List.drop (scanTokLen s.rest2) s.rest2) →
        r.rest1.length + r.rest2.length < s.rest1.length + s.rest2.length := by
      intro r e1 e2
      have b1 : r.rest1.length ≤ (List.drop (scanTokLen s.rest1) s.rest1).length := by
        rw [e1]; exact wsDrop_length_le _
      have b2 : r.rest2.length ≤ (List.drop (scanTokLen s.rest2) s.rest2).length := by
        rw [e2]; exact wsDrop_length_le _
      rw [List.length_drop] at b1 b2
      omega
    split at h
    · obtain ⟨e1, e2, _⟩ := tokendoneF_cont _ _ _ _ _ _ _ _ _ _ _ h
      exact key s' e1 e2
    · split at h
      · injection h
      · split at h
        · injection h
        · obtain ⟨e1, e2, _⟩ := tokendoneF_cont _ _ _ _ _ _ _ _ _ _ _ h
          exact key s' e1 e2

/-- With fuel exceeding the combined remaining length, the token loop always
leaves through one of its breaks. -/
theorem tokLoopF_complete (g : Globals) (ln : ℕ) :
    ∀ fuel : ℕ, ∀ s : TokSt, s.rest1.length + s.rest2.length < fuel →
      (tokLoopF g ln fuel s).2 = true := by
  intro fuel
  induction fuel with
  | zero => intro s hs; omega
  | succ n ih =>
    intro s hs
    rcases hstep : tokStep g ln s with s1 | s1
    · have := tokStep_cont_progress g ln s s1 hstep
      simp only [tokLoopF, hstep]
      exact ih s1 (by omega)
    · simp only [tokLoopF, hstep]

/-- Claim C10: the per-line token loop terminates.  Each iteration either
leaves the loop or strictly advances the cursors: the combined remaining
suffix lengths (line length minus cursor position) strictly decrease, so
running the loop with fuel one more than the combined remaining length always
reaches a break, for every pair of lines and every starting state. -/
theorem token_loop_terminates (g : Globals) (linenr : ℕ) :
    (∀ s s' : TokSt, tokStep g linenr s = .cont s' →
        s'.rest1.length + s'.rest2.length < s.rest1.length + s.rest2.length) ∧
    (∀ s : TokSt, (tokLoopF g linenr (s.rest1.length + s.rest2.length + 1) s).2 = true) :=
  ⟨fun s s' h => tokStep_cont_progress g linenr s s' h,
   fun s => tokLoopF_complete g linenr _ s (by omega)⟩

/-! ### Output classification and the shape of the diagnostic stream -/

/-- Recognizes the stream-length-mismatch diagnostics (lines 213, 218). -/
def isFileEndedB : OutLine → Bool
  | .fileEnded _ _ => true
  | _ => false

/-- Recognizes the final summary line (line 311). -/
def isSummaryB : OutLine → Bool
  | .summary _ _ => true
  | _ => false

/-- Recognizes the per-token diagnostics, the only lines the token loop can
emit. -/
def isDiagTok : OutLine → Bool
  | .fileEnded _ _ => false
  | .summary _ _ => false
  | _ => true

/-- The tokendone tail appends exactly the optional whitespace-mismatch
line. -/
theorem tokendoneF_state_out (g : Globals) (ln tk : ℕ) (r1 r2 : List Char)
    (f1 f2 : Flt) (d w : ℕ) (o : List OutLine) :
    (tokendoneF g ln tk r1 r2 f1 f2 d w o).state.out =
      if wsTake r1 ≠ wsTake r2 ∧ ¬g.ignore_ws then o ++ [.wsMismatch ln tk] else o := by
  simp only [tokendoneF]
  by_cases hws : wsTake r1 ≠ wsTake r2 ∧ ¬g.ignore_ws = true
  · simp only [if_pos hws]
    split <;> rfl
  · simp only [if_neg hws]
    split <;> rfl

/-- Shape form of the previous lemma. -/
theorem tokendoneF_out_shape (g : Globals) (ln tk : ℕ) (r1 r2 : List Char)
    (f1 f2 : Flt) (d w : ℕ) (o : List OutLine) :
    ∃ e, (tokendoneF g ln tk r1 r2 f1 f2 d w o).state.out = o ++ e ∧ e.all isDiagTok := by
  rw [tokendoneF_state_out]
  split
  · exact ⟨[.wsMismatch ln tk], rfl, rfl⟩
  · exact ⟨[], (List.append_nil o).symm, rfl⟩

/-- One iteration of the token loop only appends per-token diagnostics. -/
theorem tokStep_out_shape (g : Globals) (ln : ℕ) (s : TokSt) :
    ∃ e, (tokStep g ln s).state.out = s.out ++ e ∧ e.all isDiagTok := by
  rcases hT1 : scanTok s.rest1 with _ | ⟨a1, t1⟩ <;>
    rcases hT2 : scanTok s.rest2 with _ | ⟨a2, t2⟩ <;>
    simp only [tokStep, hT1, hT2] <;> simp
  · split
    · rw [tokendoneF_state_out]
      repeat' split
      all_goals
        first
          | ((try simp only [List.append_assoc])
             refine ⟨_, rfl, ?_⟩
             simp [isDiagTok])
          | (refine ⟨[], ?_, ?_⟩
             · simp
             · simp)
    · split
      · exact ⟨[.parseFail ln (s.tokennr + 1) true], rfl, by simp [isDiagTok]⟩
      · split
        · exact ⟨[.parseFail ln (s.tokennr + 1) false], rfl, by simp [isDiagTok]⟩
        · rw [tokendoneF_state_out]
          repeat' split
          all_goals
            first
              | ((try simp only [List.append_assoc])
                 refine ⟨_, rfl, ?_⟩
                 simp [isDiagTok])
              | (refine ⟨[], ?_, ?_⟩
                 · simp
                 · simp)
  · exact ⟨[.missingToken ln (s.tokennr + 1)], rfl, by simp [isDiagTok]⟩
  · exact ⟨[.excessToken ln (s.tokennr + 1)], rfl, by simp [isDiagTok]⟩
  · split
    · rw [tokendoneF_state_out]
      repeat' split
      all_goals
        first
          | ((try simp only [List.append_assoc])
             refine ⟨_, rfl, ?_⟩
             simp [isDiagTok])
          | (refine ⟨[], ?_, ?_⟩
             · simp
             · simp)
    · split
      · exact ⟨[.parseFail ln (s.tokennr + 1) true], rfl, by simp [isDiagTok]⟩
      · split
        · exact ⟨[.parseFail ln (s.tokennr + 1) false], rfl, by simp [isDiagTok]⟩
        · rw [tokendoneF_state_out]
          repeat' split
          all_goals
            first
              | ((try simp only [List.append_assoc])
                 refine ⟨_, rfl, ?_⟩
                 simp [isDiagTok])
              | (refine ⟨[], ?_, ?_⟩
                 · simp
                 · simp)

/-- The whole token loop only appends per-token diagnostics. -/
theorem tokLoopF_out_shape (g : Globals) (ln : ℕ) :
    ∀ (fuel : ℕ) (s : TokSt),
      ∃ e, (tokLoopF g ln fuel s).1.out = s.out ++ e ∧ e.all isDiagTok := by
  intro fuel
  induction fuel with
  | zero => intro s; exact ⟨[], by simp [tokLoopF], rfl⟩
  | succ n ih =>
    intro s
    rcases hstep : tokStep g ln s with s1 | s1
    · obtain ⟨e1, he1, ha1⟩ := tokStep_out_shape g ln s
      rw [hstep] at he1
      simp only [StepRes.state] at he1
      obtain ⟨e2, he2, ha2⟩ := ih s1
      refine ⟨e1 ++ e2, ?_, ?_⟩
      · simp only [tokLoopF, hstep]
        rw [he2, he1, List.append_assoc]
      · simp only [List.all_append, ha1, ha2, Bool.and_self]
    · obtain ⟨e1, he1, ha1⟩ := tokStep_out_shape g ln s
      rw [hstep] at he1
      simp only [StepRes.state] at he1
      exact ⟨e1, by simp only [tokLoopF, hstep]; exact he1, ha1⟩

/-- Processing one line pair only appends per-token diagnostics. -/
theorem runLine_out_shape (g : Globals) (l1 l2 : List Char) (ln : ℕ) (m : MSt) :
    ∃ e, (runLine g l1 l2 ln m).out = m.out ++ e ∧ e.all isDiagTok := by
  obtain ⟨e, he, ha⟩ := tokLoopF_out_shape g ln (l1.length + l2.length + 1)
    ⟨wsDrop l1, wsDrop l2, 0, wsTake l1, wsTake l2, (wsTake l1).length, (wsTake l2).length,
     m.f1, m.f2, m.diff, m.wsdiff, m.out⟩
  exact ⟨e, he, ha⟩

theorem isDiagTok_not_fileEnded (x : OutLine) (h : isDiagTok x = true) :
    isFileEndedB x = false := by
  cases x <;> simp_all [isDiagTok, isFileEndedB]

theorem isDiagTok_not_summary (x : OutLine) (h : isDiagTok x = true) :
    isSummaryB x = false := by
  cases x <;> simp_all [isDiagTok, isSummaryB]

theorem all_diag_not_summary (e : List OutLine) (h : e.all isDiagTok = true) :
    e.all (fun x => !isSummaryB x) = true := by
  rw [List.all_eq_true] at h ⊢
  intro a ha
  simp [isDiagTok_not_summary a (h a ha)]

/-- When file 1 is the shorter stream, the line loop processes exactly the
common prefix, then records the single ended-early diagnostic as its last
output line and stops with linenr at the mismatch line. -/
theorem mainLoop_lt (g : Globals) :
    ∀ (l1s l2s : List (List Char)) (ln : ℕ) (m : MSt), l1s.length < l2s.length →
      (mainLoop g l1s l2s ln m).1 = ln + l1s.length + 1 ∧
      ∃ e, (mainLoop g l1s l2s ln m).2.out
          = m.out ++ e ++ [.fileEnded (ln + l1s.length + 1) true] ∧ e.all isDiagTok := by
  intro l1s
  induction l1s with
  | nil =>
    intro l2s ln m hlen
    cases l2s with
    | nil => simp at hlen
    | cons l2 r2 =>
      refine ⟨rfl, [], ?_, rfl⟩
      simp [mainLoop]
  | cons l1 r1 ih =>
    intro l2s ln m hlen
    cases l2s with
    | nil => simp at hlen
    | cons l2 r2 =>
      have hlen' : r1.length < r2.length := by simpa using hlen
      obtain ⟨hln, e2, he2, ha2⟩ := ih r2 (ln + 1) (runLine g l1 l2 (ln + 1) m) hlen'
      obtain ⟨e1, he1, ha1⟩ := runLine_out_shape g l1 l2 (ln + 1) m
      have hn : ln + 1 + r1.length + 1 = ln + (l1 :: r1).length + 1 := by
        simp [List.length_cons]
        omega
      constructor
      · show (mainLoop g r1 r2 (ln + 1) (runLine g l1 l2 (ln + 1) m)).1 = _
        rw [hln, hn]
      · refine ⟨e1 ++ e2, ?_, ?_⟩
        · show (mainLoop g r1 r2 (ln + 1) (runLine g l1 l2 (ln + 1) m)).2.out = _
          rw [he2, he1, hn]
          simp [List.append_assoc]
        · simp only [List.all_append, ha1, ha2, Bool.and_self]

/-- Symmetric version: file 2 is the shorter stream. -/
theorem mainLoop_gt (g : Globals) :
    ∀ (l1s l2s : List (List Char)) (ln : ℕ) (m : MSt), l2s.length < l1s.length →
      (mainLoop g l1s l2s ln m).1 = ln + l2s.length + 1 ∧
      ∃ e, (mainLoop g l1s l2s ln m).2.out
          = m.out ++ e ++ [.fileEnded (ln + l2s.length + 1) false] ∧ e.all isDiagTok := by
  intro l1s
  induction l1s with
  | nil =>
    intro l2s ln m hlen
    simp at hlen
  | cons l1 r1 ih =>
    intro l2s ln m hlen
    cases l2s with
    | nil =>
      refine ⟨rfl, [], ?_, rfl⟩
      simp [mainLoop]
    | cons l2 r2 =>
      have hlen' : r2.length < r1.length := by simpa using hlen
      obtain ⟨hln, e2, he2, ha2⟩ := ih r2 (ln + 1) (runLine g l1 l2 (ln + 1) m) hlen'
      obtain ⟨e1, he1, ha1⟩ := runLine_out_shape g l1 l2 (ln + 1) m
      have hn : ln + 1 + r2.length + 1 = ln + (l2 :: r2).length + 1 := by
        simp [List.length_cons]
        omega
      constructor
      · show (mainLoop g r1 r2 (ln + 1) (runLine g l1 l2 (ln + 1) m)).1 = _
        rw [hln, hn]
      · refine ⟨e1 ++ e2, ?_, ?_⟩
        · show (mainLoop g r1 r2 (ln + 1) (runLine g l1 l2 (ln + 1) m)).2.out = _
          rw [he2, he1, hn]
          simp [List.append_assoc]
        · simp only [List.all_append, ha1, ha2, Bool.and_self]

/-- The line loop never emits a summary line. -/
theorem mainLoop_out_shape (g : Globals) :
    ∀ (l1s l2s : List (List Char)) (ln : ℕ) (m : MSt),
      ∃ e, (mainLoop g l1s l2s ln m).2.out = m.out ++ e ∧
        e.all (fun x => !isSummaryB x) := by
  intro l1s
  induction l1s with
  | nil =>
    intro l2s ln m
    cases l2s with
    | nil => exact ⟨[], by simp [mainLoop], rfl⟩
    | cons l2 r2 => exact ⟨[.fileEnded (ln + 1) true], by simp [mainLoop], rfl⟩
  | cons l1 r1 ih =>
    intro l2s ln m
    cases l2s with
    | nil => exact ⟨[.fileEnded (ln + 1) false], by simp [mainLoop], rfl⟩
    | cons l2 r2 =>
      obtain ⟨e2, he2, ha2⟩ := ih r2 (ln + 1) (runLine g l1 l2 (ln + 1) m)
      obtain ⟨e1, he1, ha1⟩ := runLine_out_shape g l1 l2 (ln + 1) m
      refine ⟨e1 ++ e2, ?_, ?_⟩
      · show (mainLoop g r1 r2 (ln + 1) (runLine g l1 l2 (ln + 1) m)).2.out = _
        rw [he2, he1, List.append_assoc]
      · simp only [List.all_append, all_diag_not_summary e1 ha1, ha2, Bool.and_self]

/-- Claim C5: when one stream ends before the other, exactly one
length-mismatch diagnostic is recorded, for the line just past the shorter
stream's end; it is the final output line and the loop stops there (the
returned linenr is that same line, so no later line is examined). -/
theorem stream_length_mismatch_single_record (g : Globals) (l1s l2s : List (List Char))
    (h : l1s.length ≠ l2s.length) :
    (mainLoop g l1s l2s 0 initMSt).1 = min l1s.length l2s.length + 1 ∧
    (mainLoop g l1s l2s 0 initMSt).2.out.countP isFileEndedB = 1 ∧
    (mainLoop g l1s l2s 0 initMSt).2.out.getLast?
      = some (.fileEnded (min l1s.length l2s.length + 1)
              (decide (l1s.length < l2s.length))) := by
  rcases Nat.lt_or_ge l1s.length l2s.length with hlt | hge
  · obtain ⟨h1, e, he, ha⟩ := mainLoop_lt g l1s l2s 0 initMSt hlt
    have hmin : min l1s.length l2s.length = l1s.length := Nat.min_eq_left (Nat.le_of_lt hlt)
    have hdec : decide (l1s.length < l2s.length) = true := decide_eq_true hlt
    have hz : e.countP isFileEndedB = 0 := by
      rw [List.countP_eq_zero]
      intro a ha2
      simp [isDiagTok_not_fileEnded a (List.all_eq_true.mp ha a ha2)]
    refine ⟨?_, ?_, ?_⟩
    · rw [h1, hmin]
      omega
    · rw [he]
      simp [List.countP_append, hz, isFileEndedB, initMSt]
    · rw [he, hmin, hdec, List.getLast?_concat]
      simp
  · have hgt : l2s.length < l1s.length := Nat.lt_of_le_of_ne hge (fun he => h he.symm)
    obtain ⟨h1, e, he, ha⟩ := mainLoop_gt g l1s l2s 0 initMSt hgt
    have hmin : min l1s.length l2s.length = l2s.length := Nat.min_eq_right (Nat.le_of_lt hgt)
    have hdec : decide (l1s.length < l2s.length) = false :=
      decide_eq_false (Nat.not_lt.mpr (Nat.le_of_lt hgt))
    have hz : e.countP isFileEndedB = 0 := by
      rw [List.countP_eq_zero]
      intro a ha2
      simp [isDiagTok_not_fileEnded a (List.all_eq_true.mp ha a ha2)]
    refine ⟨?_, ?_, ?_⟩
    · rw [h1, hmin]
      omega
    · rw [he]
      simp [List.countP_append, hz, isFileEndedB, initMSt]
    · rw [he, hmin, hdec, List.getLast?_concat]
      simp

/-- Witness for C5: an empty file 1 against a one-line file 2. -/
theorem stream_length_mismatch_single_record_witness :
    (mainLoop ⟨.fin 0, .fin 0, false⟩ [] [['a']] 0 initMSt).1 = min 0 1 + 1 ∧
    (mainLoop ⟨.fin 0, .fin 0, false⟩ [] [['a']] 0 initMSt).2.out.countP isFileEndedB = 1 ∧
    (mainLoop ⟨.fin 0, .fin 0, false⟩ [] [['a']] 0 initMSt).2.out.getLast?
      = some (.fileEnded (min 0 1 + 1) (decide (0 < 1))) := by
  have h := stream_length_mismatch_single_record ⟨.fin 0, .fin 0, false⟩ [] [['a']]
    (by decide)
  simpa using h

/-- Claim C9 (amended): the output consists of the per-record diagnostic
lines followed by the summary line, and the summary appears exactly when the
difference count is positive; with zero differences no summary (and no
verdict) is printed. -/
theorem summary_iff_differences (g : Globals) (l1s l2s : List (List Char)) :
    (fullRun g l1s l2s).2.countP isSummaryB
      = if 0 < (fullRun g l1s l2s).1 then 1 else 0 := by
  obtain ⟨e, he, ha⟩ := mainLoop_out_shape g l1s l2s 0 initMSt
  have hz : e.countP isSummaryB = 0 := by
    rw [List.countP_eq_zero]
    intro a ha2
    have h3 := List.all_eq_true.mp ha a ha2
    simp at h3
    simp [h3]
  simp only [fullRun]
  rw [List.countP_append, he]
  split <;> simp [hz, isSummaryB, List.countP_cons, initMSt]
